import Mathlib

/-!
# Verification of the iptv-tool channel / EPG core

A shallow embedding of the channel-directory, playlist-renderer and
EPG-aggregation code of the `iptv-tool` repository, together with
theorems settling the specification claims about it.

Conventions of the embedding:
* Go `net/url.URL` values are modelled by `URL` (scheme, host, path only;
  user info, query, fragment and percent-escaping are not modelled; the
  zero value renders as the empty string, as in Go).
* Go `time.Duration` (an `int64` count of nanoseconds) is modelled by `Int`.
* Wall-clock instants are modelled as minutes since an arbitrary epoch:
  a calendar day `d : Int` paired with a time of day `h:m` becomes
  `d * 1440 + h * 60 + m`.  Adding one calendar day is `+ 1440`,
  `time.Time.Before` is `<` on these minute counts.
* Fallible Go functions returning `(T, error)` become `Except String T`
  (or `Except FetchErr T` where the identity of the error matters).
* I/O collaborators (HTTP fetches, `os.Stat` for logo files) become
  explicit oracle arguments.
-/

namespace IptvTool

/-- Model of Go `net/url.URL` restricted to the fields the repository
uses: scheme, host and path. -/
structure URL where
  scheme : String
  host : String
  path : String
  deriving DecidableEq, Repr

/-- The zero value of `url.URL` (all fields empty), which is what the
second `getChannelURLStr` variant selects when no URL matches the
preference. -/
def URL.zero : URL := ⟨"", "", ""⟩

/-- Model of `url.URL.String()` for URLs of the modelled shape: Go emits
`scheme:` when the scheme is present, `//host` when the host is present,
then the path.  The zero URL renders as `""`. -/
def urlString (u : URL) : String :=
  (if u.scheme != "" then u.scheme ++ ":" else "") ++
  (if u.host != "" then "//" ++ u.host else "") ++
  u.path

/-- `const SCHEME_IGMP = "igmp"` from `channel.go`. -/
def SCHEME_IGMP : String := "igmp"

/-- Model of `url.JoinPath(udpxyURL, "/rtp/", host)` (second variant) and
`url.JoinPath(udpxyURL, fmt.Sprintf("/rtp/%s", host))` (first variant):
both produce the proxy base followed by `/rtp/` and the original host
(assuming, as the repository does, a proxy base without trailing slash). -/
def joinRtpPath (udpxyURL host : String) : String :=
  udpxyURL ++ "/rtp/" ++ host

/-- The loop condition of both `getChannelURLStr` variants:
`(multicastFirst && u.Scheme == SCHEME_IGMP) || (!multicastFirst && u.Scheme != SCHEME_IGMP)`. -/
def urlPrefMatch (multicastFirst : Bool) (u : URL) : Bool :=
  (multicastFirst && u.scheme == SCHEME_IGMP) ||
  (!multicastFirst && u.scheme != SCHEME_IGMP)

/-- Selection loop of the first `getChannelURLStr` variant
(`channel.go` lines 160-170): `for _, channelURL = range channelURLs`
assigns every element to `channelURL` before testing, so when no element
matches the preference the loop leaves the last element selected. -/
def selectURL_v1 (multicastFirst : Bool) : List URL → URL
  | [] => URL.zero
  | [u] => u
  | u :: rest =>
    if urlPrefMatch multicastFirst u then u else selectURL_v1 multicastFirst rest

/-- Selection loop of the second `getChannelURLStr` variant
(`channel.go` lines 337-348): `selectedURL` is only assigned on a match,
so when no element matches the preference the zero `url.URL` remains
selected. -/
def selectURL_v2 (multicastFirst : Bool) : List URL → URL
  | [] => URL.zero
  | u :: rest =>
    if urlPrefMatch multicastFirst u then u else selectURL_v2 multicastFirst rest

/-- The shared tail of both variants: if a proxy (`udpxyURL`) is
configured and the chosen URL is multicast, rewrite to
`{udpxyURL}/rtp/{host}`; otherwise render the chosen URL verbatim. -/
def renderChosenURL (udpxyURL : String) (u : URL) : String :=
  if udpxyURL != "" && u.scheme == SCHEME_IGMP then joinRtpPath udpxyURL u.host
  else urlString u

/-- `getChannelURLStr`, first variant (`channel.go` lines 155-177). -/
def getChannelURLStr_v1 (channelURLs : List URL) (udpxyURL : String)
    (multicastFirst : Bool) : Except String String :=
  match channelURLs with
  | [] => .error "no channel urls found"
  | [u] => .ok (renderChosenURL udpxyURL u)
  | urls => .ok (renderChosenURL udpxyURL (selectURL_v1 multicastFirst urls))

/-- `getChannelURLStr`, second variant (`channel.go` lines 332-354). -/
def getChannelURLStr_v2 (channelURLs : List URL) (udpxyURL : String)
    (multicastFirst : Bool) : Except String String :=
  match channelURLs with
  | [] => .error "no channel urls found"
  | [u] => .ok (renderChosenURL udpxyURL u)
  | urls => .ok (renderChosenURL udpxyURL (selectURL_v2 multicastFirst urls))

/-- The `Channel` struct of `internal/app/iptv/channel.go`.
`timeShiftLength` is Go `time.Duration`, i.e. nanoseconds. -/
structure Channel where
  channelID : String
  channelName : String
  userChannelID : String
  channelURLs : List URL
  timeShift : String
  timeShiftLength : Int
  timeShiftURL : Option URL
  groupName : String
  logoName : String
  deriving DecidableEq, Repr

/-- `updateChannels` from the router (`part_001` lines 172-186): fetch the
channel list; on a fetch error or an empty list return an error without
touching the cached snapshot, otherwise store the new list.  The atomic
pointer `channelsPtr` is modelled by explicit state passing: the result is
the new cache contents paired with the reported error, if any. -/
def updateChannels (fetched : Except String (List Channel))
    (cache : List Channel) : List Channel × Option String :=
  match fetched with
  | .error e => (cache, some e)
  | .ok channels =>
    if channels.length == 0 then (cache, some "未找到有效频道")
    else (channels, none)

/-- `mapCatchupMode` from `channel.go`. -/
def mapCatchupMode (param : String) : String :=
  match param with
  | "1" => "append"
  | "2" => "flussonic"
  | "3" => "xdomo"
  | "4" => "custom"
  | _ => "default"

/-- Go's `<` on strings: byte-wise lexicographic comparison (identical to
character-wise comparison on the ASCII strings involved here). -/
def goStrLtChars : List Char → List Char → Bool
  | [], [] => false
  | [], _ :: _ => true
  | _ :: _, [] => false
  | a :: as, b :: bs =>
    if a < b then true else if b < a then false else goStrLtChars as bs

/-- Go string comparison `s < t`. -/
def goStrLt (s t : String) : Bool :=
  goStrLtChars s.data t.data

/-- The catch-up mode validation at the top of `GetM3UData`
(`part_001` lines 33-39): Go compares the strings lexicographically
(`catchUpMode < "0" || catchUpMode > "4"`) and resets to `"0"` only when
that comparison fires. -/
def validateCatchUpMode (catchUpMode : String) : String :=
  if goStrLt catchUpMode "0" || goStrLt "4" catchUpMode then "0" else catchUpMode

/-- A sample unicast channel used by concrete witnesses. -/
def sampleChannel : Channel :=
  ⟨"ch1", "CCTV-1", "1", [⟨"http", "203.0.113.9:8080", "/live1"⟩],
    "0", 0, none, "央视", "CCTV1"⟩

/-- The `switch catchUpMode` block inside `ToM3UFormat` computing the
catch-up source URL from the base catch-up URL. -/
def catchupSourceURL (catchupSource catchUpMode baseURL : String) : String :=
  match catchUpMode with
  | "1" => baseURL ++ catchupSource
  | "2" => baseURL ++ "?start=${start}&end=${end}&dvr=${duration}"
  | "3" => baseURL ++ "?timeshift=${start}-${end}"
  | "4" => baseURL ++ "?" ++ catchupSource
  | _ => baseURL

/-- `int64(channel.TimeShiftLength.Hours() / 24)`: the time-shift window
in nanoseconds divided by the nanoseconds of one day.  On the guarded
domain (`0 < timeShiftLength`) Euclidean, floor and Go's
truncating division coincide. -/
def catchupDays (timeShiftLength : Int) : Int :=
  timeShiftLength / 86400000000000

/-- The catch-up attribute block of `ToM3UFormat` (`channel.go` lines
71-95): emitted only when the channel declares time-shift capability
(`TimeShift == "1"`), a positive window and a non-nil base catch-up URL. -/
def catchupAttr (catchupSource catchUpMode : String) (ch : Channel) : String :=
  match ch.timeShiftURL with
  | none => ""
  | some tsURL =>
    if ch.timeShift = "1" ∧ 0 < ch.timeShiftLength then
      " catchup=\"" ++ mapCatchupMode catchUpMode ++ "\" catchup-source=\"" ++
        catchupSourceURL catchupSource catchUpMode (urlString tsURL) ++
        "\" catchup-days=\"" ++ toString (catchupDays ch.timeShiftLength) ++ "\""
    else ""

/-- The logo attribute of `ToM3UFormat`: the `os.Stat` existence check of
`{currDir}/{logoDirName}/{logoName}.png` is modelled by the `logoExists`
oracle, and `url.JoinPath(logoBaseUrl, logoFile)` by plain joining. -/
def logoAttr (logoBaseUrl : String) (logoExists : String → Bool)
    (ch : Channel) : String :=
  if logoBaseUrl != "" && ch.logoName != "" && logoExists (ch.logoName ++ ".png") then
    " tvg-logo=\"" ++ logoBaseUrl ++ "/" ++ ch.logoName ++ ".png" ++ "\""
  else ""

/-- One channel's contribution to the M3U document (the loop body of
`ToM3UFormat`): fails when the channel's URL list is empty. -/
def m3uChannelLine (udpxyURL catchupSource catchUpMode : String)
    (multicastFirst : Bool) (logoBaseUrl : String) (logoExists : String → Bool)
    (ch : Channel) : Except String String := do
  let channelURLStr ← getChannelURLStr_v1 ch.channelURLs udpxyURL multicastFirst
  Except.ok ("#EXTINF:-1 tvg-id=\"" ++ ch.channelID ++ "\" tvg-chno=\"" ++
    ch.userChannelID ++ "\"" ++
    logoAttr logoBaseUrl logoExists ch ++
    catchupAttr catchupSource catchUpMode ch ++
    " group-title=\"" ++ ch.groupName ++ "\"," ++ ch.channelName ++ "\n" ++
    channelURLStr ++ "\n")

/-- The channel loop of `ToM3UFormat`: the first failing channel aborts
the whole render with its error, as in the Go `return "", err`. -/
def renderM3UChannels (udpxyURL catchupSource catchUpMode : String)
    (multicastFirst : Bool) (logoBaseUrl : String) (logoExists : String → Bool) :
    List Channel → Except String String
  | [] => Except.ok ""
  | ch :: rest => do
    let line ← m3uChannelLine udpxyURL catchupSource catchUpMode multicastFirst
      logoBaseUrl logoExists ch
    let restStr ← renderM3UChannels udpxyURL catchupSource catchUpMode
      multicastFirst logoBaseUrl logoExists rest
    Except.ok (line ++ restStr)

/-- `ToM3UFormat` (`channel.go` lines 31-103). -/
def ToM3UFormat (channels : List Channel) (udpxyURL catchupSource catchUpMode : String)
    (multicastFirst : Bool) (logoBaseUrl : String) (logoExists : String → Bool) :
    Except String String :=
  if channels.length = 0 then Except.error "no channels found"
  else
    match renderM3UChannels udpxyURL catchupSource catchUpMode multicastFirst
        logoBaseUrl logoExists channels with
    | .error e => .error e
    | .ok body => .ok ("#EXTM3U\n" ++ body)

/-- The first loop of `ToTxtFormat`: collect group names in first-seen
order (the `groupNames` slice). -/
def buildGroupNames (channels : List Channel) : List String :=
  channels.foldl
    (fun acc ch => if acc.contains ch.groupName then acc else acc ++ [ch.groupName]) []

/-- The channels stored under one group name by `ToTxtFormat`'s map
(`groupChannelMap`): the channels with that group, in input order. -/
def groupBucket (channels : List Channel) (g : String) : List Channel :=
  channels.filter (fun ch => ch.groupName == g)

/-- The inner channel loop of `ToTxtFormat`: one `name,url` line per
channel; the first failing channel aborts the render. -/
def renderTxtChannels (udpxyURL : String) (multicastFirst : Bool) :
    List Channel → Except String String
  | [] => Except.ok ""
  | ch :: rest => do
    let urlStr ← getChannelURLStr_v1 ch.channelURLs udpxyURL multicastFirst
    let restStr ← renderTxtChannels udpxyURL multicastFirst rest
    Except.ok (ch.channelName ++ "," ++ urlStr ++ "\n" ++ restStr)

/-- The outer group loop of `ToTxtFormat`: group header
`{group},#genre#`, then that group's channel lines. -/
def renderTxtGroups (channels : List Channel) (udpxyURL : String)
    (multicastFirst : Bool) : List String → Except String String
  | [] => Except.ok ""
  | g :: gs => do
    let body ← renderTxtChannels udpxyURL multicastFirst (groupBucket channels g)
    let rest ← renderTxtGroups channels udpxyURL multicastFirst gs
    Except.ok (g ++ ",#genre#\n" ++ body ++ rest)

/-- `ToTxtFormat` (`channel.go` lines 117-152). -/
def ToTxtFormat (channels : List Channel) (udpxyURL : String)
    (multicastFirst : Bool) : Except String String :=
  if channels.length = 0 then Except.error "no channels found"
  else renderTxtGroups channels udpxyURL multicastFirst (buildGroupNames channels)

/-- `diypCatchupSource` constant of the router. -/
def diypCatchupSource : String := "?playseek=${(b)yyyyMMddHHmmss}-${(e)yyyyMMddHHmmss}"

/-- `kodiCatchupSource` constant of the router. -/
def kodiCatchupSource : String := "?playseek={utc:YmdHMS}-{utcend:YmdHMS}"

/-- The `switch catchUpMode` block of `GetM3UData` choosing the
`catchupSource` argument passed to the renderer. -/
def selectCatchupSource (catchUpMode csFormat customSource : String) : String :=
  match catchUpMode with
  | "1" => if csFormat = "1" then kodiCatchupSource else diypCatchupSource
  | "2" => "?start=${start}&end=${end}&dvr=${duration}"
  | "3" => "?timeshift=${start}-${end}"
  | "4" => if customSource != "" then customSource else diypCatchupSource
  | _ => if csFormat = "1" then kodiCatchupSource else diypCatchupSource

/-- The HTTP handler `GetM3UData` (`part_001` lines 30-114), modelled as
a function of the query parameters, the cached channel list and the
collaborator oracles, returning `(status code, body)`: 404 on an empty
cache, 500 with empty body when `ToM3UFormat` fails, else 200 with the
document. -/
def GetM3UData (catchUpParam csFormat customSource : String)
    (channels : List Channel) (udpxyURL : String) (multicastFirst : Bool)
    (logoBaseUrl : String) (logoExists : String → Bool) : Nat × String :=
  let catchUpMode := validateCatchUpMode catchUpParam
  let catchupSource := selectCatchupSource catchUpMode csFormat customSource
  if channels.length = 0 then (404, "")
  else
    match ToM3UFormat channels udpxyURL catchupSource catchUpMode multicastFirst
        logoBaseUrl logoExists with
    | .error _ => (500, "")
    | .ok content => (200, content)

/-- The HTTP handler `GetTXTData` (`part_001` lines 117-141): 404 on an
empty cache; when `ToTxtFormat` fails it logs and answers
`http.StatusOK` with an empty body; else 200 with the document. -/
def GetTXTData (channels : List Channel) (udpxyURL : String)
    (multicastFirst : Bool) : Nat × String :=
  if channels.length = 0 then (404, "")
  else
    match ToTxtFormat channels udpxyURL multicastFirst with
    | .error _ => (200, "")
    | .ok content => (200, content)

/-- The error identities the EPG code distinguishes:
`ErrEPGApiNotFound` (upstream returned HTTP 404 for the day),
`ErrChProgListIsEmpty` (response decoded but has zero entries), and any
other transport/parse error. -/
inductive FetchErr where
  | apiNotFound
  | chProgListIsEmpty
  | other (msg : String)
  deriving DecidableEq, Repr

/-- One raw entry of the decoded upstream program JSON (the fields the
parsers read: `progName`, `startTime`, `endTime`). -/
structure RawProgramEntry where
  progName : String
  startTime : String
  endTime : String
  deriving DecidableEq, Repr

/-- The `iptv.Program` produced by the parsers.  The Go struct stores the
start/end instants as formatted strings; here an instant is its minute
count (day number * 1440 + hour * 60 + minute), which carries the same
information. -/
structure Program where
  programName : String
  startMin : Int
  endMin : Int
  deriving DecidableEq, Repr

/-- `iptv.DateProgram`: a calendar day (as a day number) with its
program list. -/
structure DateProgram where
  date : Int
  programList : List Program
  deriving DecidableEq, Repr

/-- Numeric value of an ASCII digit character. -/
def digitVal (c : Char) : Nat := c.toNat - 48

/-- Model of Go `time.ParseInLocation("15:04", s, loc)` restricted to the
parsed clock values: layout `15` accepts a one- or two-digit hour, then
the literal `:`, then exactly two minute digits, and the whole string
must be consumed; hour and minute are range-checked. -/
def parseHHMM (s : String) : Option (Nat × Nat) :=
  match s.data with
  | [h1, h2, c, m1, m2] =>
    if h1.isDigit && h2.isDigit then
      if c == ':' && m1.isDigit && m2.isDigit then
        let h := digitVal h1 * 10 + digitVal h2
        let m := digitVal m1 * 10 + digitVal m2
        if h < 24 ∧ m < 60 then some (h, m) else none
      else none
    else none
  | [h1, c, m1, m2] =>
    if h1.isDigit && c == ':' && m1.isDigit && m2.isDigit then
      let h := digitVal h1
      let m := digitVal m1 * 10 + digitVal m2
      if h < 24 ∧ m < 60 then some (h, m) else none
    else none
  | _ => none

/-- Go `s[:5]` applied to a time string when `len(s) > 5` (byte
truncation; the raw times are ASCII so character truncation agrees). -/
def truncTime (s : String) : String :=
  if s.length > 5 then (s.data.take 5).asString else s

/-- `parseShandongTimes` (`epg_shandong.go` lines 143-178): truncate both
times to `HH:MM`, parse them, anchor to the base day, and advance the end
by one day when it falls before the start. -/
def parseShandongTimes (baseDay : Int) (startStr endStr : String) :
    Option (Int × Int) :=
  match parseHHMM (truncTime startStr), parseHHMM (truncTime endStr) with
  | some (sh, sm), some (eh, em) =>
    let start := baseDay * 1440 + Int.ofNat (sh * 60 + sm)
    let endT := baseDay * 1440 + Int.ofNat (eh * 60 + em)
    some (start, if endT < start then endT + 1440 else endT)
  | _, _ => none

/-- The per-entry time handling of `parseSdIptvProgramList` (`part_002`
lines 138-158): the start time is parsed as-is (no truncation — a start
with trailing seconds fails), only the end time is truncated to `HH:MM`;
anchoring and the midnight advance are as in `parseShandongTimes`. -/
def parseSdIptvEntryTimes (baseDay : Int) (startStr endStr : String) :
    Option (Int × Int) :=
  match parseHHMM startStr with
  | none => none
  | some (sh, sm) =>
    match parseHHMM (truncTime endStr) with
    | none => none
    | some (eh, em) =>
      let start := baseDay * 1440 + Int.ofNat (sh * 60 + sm)
      let endT := baseDay * 1440 + Int.ofNat (eh * 60 + em)
      some (start, if endT < start then endT + 1440 else endT)

/-- The entry-accumulation loop shared by both parsers (`append` on
success, `continue` on a failed entry). -/
def parseLoop (f : RawProgramEntry → Option Program) :
    List RawProgramEntry → List Program → List Program
  | [], acc => acc
  | item :: rest, acc =>
    match f item with
    | none => parseLoop f rest acc
    | some p => parseLoop f rest (acc ++ [p])

/-- One entry of `parseShandongPrograms`. -/
def shandongEntryProgram (baseDay : Int) (item : RawProgramEntry) :
    Option Program :=
  (parseShandongTimes baseDay item.startTime item.endTime).map
    (fun se => ⟨item.progName, se.1, se.2⟩)

/-- One entry of `parseSdIptvProgramList`. -/
def sdIptvEntryProgram (baseDay : Int) (item : RawProgramEntry) :
    Option Program :=
  (parseSdIptvEntryTimes baseDay item.startTime item.endTime).map
    (fun se => ⟨item.progName, se.1, se.2⟩)

/-- `parseShandongPrograms` (`epg_shandong.go` lines 107-139) on the
decoded response data: zero entries yield `ErrChProgListIsEmpty`,
otherwise each entry is parsed and unparseable entries are skipped. -/
def parseShandongPrograms (data : List RawProgramEntry) (baseDay : Int) :
    Except FetchErr (List Program) :=
  if data.isEmpty then .error .chProgListIsEmpty
  else .ok (parseLoop (shandongEntryProgram baseDay) data [])

/-- `parseSdIptvProgramList` (`part_002` lines 123-169) on the decoded
response data. -/
def parseSdIptvProgramList (data : List RawProgramEntry) (baseDay : Int) :
    Except FetchErr (List Program) :=
  if data.isEmpty then .error .chProgListIsEmpty
  else .ok (parseLoop (sdIptvEntryProgram baseDay) data [])

/-- The index range `[-7, 4]` of `epg_shandong.go` (`minIndex`/`maxIndex`). -/
def sdIndices : List Int := (List.range 12).map (fun k => (k : Int) - 7)

/-- The skip-policy aggregation loop of `getSdIptvChannelProgramList`
(`epg_shandong.go` lines 36-55) and `getShandongChannelProgramList`
(`part_003` lines 33-54): day-not-found is skipped with no log, any
other error is logged (recorded here as the day's index in the warning
list) and skipped, a successful day is appended with its date.  The day
of offset `i` is `today + i`. -/
def aggSkipLoop (today : Int) (fetch : Int → Except FetchErr (List Program)) :
    List Int → List DateProgram × List Int
  | [] => ([], [])
  | i :: rest =>
    let tail := aggSkipLoop today fetch rest
    match fetch i with
    | .error .apiNotFound => tail
    | .error _ => (tail.1, i :: tail.2)
    | .ok programs => (⟨today + i, programs⟩ :: tail.1, tail.2)

/-- `getSdIptvChannelProgramList` of `epg_shandong.go`: aggregate the
fixed index range with the skip policy. -/
def getSdIptvChannelProgramList_A (today : Int)
    (fetch : Int → Except FetchErr (List Program)) :
    List DateProgram × List Int :=
  aggSkipLoop today fetch sdIndices

/-- The index range `[-daysBefore, daysAfter]` of `part_003` (the
constants are defined outside the given sources, so they are
parameters). -/
def cIndices (daysBefore daysAfter : Nat) : List Int :=
  (List.range (daysBefore + daysAfter + 1)).map (fun k => (k : Int) - daysBefore)

/-- `getShandongChannelProgramList` of `part_003`: same skip policy over
its own index range. -/
def getShandongChannelProgramList_C (daysBefore daysAfter : Nat) (today : Int)
    (fetch : Int → Except FetchErr (List Program)) :
    List DateProgram × List Int :=
  aggSkipLoop today fetch (cIndices daysBefore daysAfter)

/-- The aggregation loop of `part_002`'s `getSdIptvChannelProgramList`
(lines 39-57): `errors.Is(err, ErrEPGApiNotFound)` makes the whole
aggregation return that error; any other error is logged and skipped. -/
def aggAbortLoop (today : Int) (fetch : Int → Except FetchErr (List Program)) :
    List Int → Except FetchErr (List DateProgram × List Int)
  | [] => .ok ([], [])
  | i :: rest =>
    match fetch i with
    | .error e =>
      if e = .apiNotFound then .error e
      else (aggAbortLoop today fetch rest).map (fun dw => (dw.1, i :: dw.2))
    | .ok programs =>
      (aggAbortLoop today fetch rest).map
        (fun dw => (⟨today + i, programs⟩ :: dw.1, dw.2))

/-- The index range `[0, epgBackDay]` of `part_002`, where
`epgBackDay = int(TimeShiftLength.Hours()/24) + 1` capped at
`maxBackDay` (a constant defined outside the given sources, so a
parameter).  On the nonnegative windows that occur, Euclidean division
agrees with Go's truncation. -/
def bIndices (maxBackDay timeShiftLength : Int) : List Int :=
  let epgBackDay := timeShiftLength / 86400000000000 + 1
  let epgBackDay := if epgBackDay > maxBackDay then maxBackDay else epgBackDay
  (List.range (epgBackDay + 1).toNat).map (fun k => (k : Int))

/-- `getSdIptvChannelProgramList` of `part_002`. -/
def getSdIptvChannelProgramList_B (maxBackDay timeShiftLength today : Int)
    (fetch : Int → Except FetchErr (List Program)) :
    Except FetchErr (List DateProgram × List Int) :=
  aggAbortLoop today fetch (bIndices maxBackDay timeShiftLength)

/-- Specification-side characterization: the `DateProgram` a successful
day contributes, `none` for a failed day. -/
def successDay (today : Int) (fetch : Int → Except FetchErr (List Program))
    (i : Int) : Option DateProgram :=
  match fetch i with
  | .ok programs => some ⟨today + i, programs⟩
  | .error _ => none

/-- Specification-side characterization: a day is warned about exactly
when it fails with an error other than day-not-found. -/
def warnedDay (fetch : Int → Except FetchErr (List Program)) (i : Int) : Bool :=
  match fetch i with
  | .error .apiNotFound => false
  | .error _ => true
  | .ok _ => false

/-- The URL selected by the first `getChannelURLStr` variant, as a total
function of the URL list (meaningful for nonempty lists). -/
def chosenURL (multicastFirst : Bool) : List URL → URL
  | [] => URL.zero
  | [u] => u
  | urls => selectURL_v1 multicastFirst urls

/-- One channel line of the TXT document without its trailing newline:
`{name},{resolved URL}`. -/
def txtChannelCore (udpxyURL : String) (multicastFirst : Bool)
    (ch : Channel) : String :=
  ch.channelName ++ "," ++ renderChosenURL udpxyURL (chosenURL multicastFirst ch.channelURLs)

/-- The channel lines of one group of the TXT document. -/
def txtChannelsString (udpxyURL : String) (multicastFirst : Bool) :
    List Channel → String
  | [] => ""
  | ch :: rest =>
    txtChannelCore udpxyURL multicastFirst ch ++ "\n" ++
      txtChannelsString udpxyURL multicastFirst rest

/-- The full TXT document over a list of group names: group header
`{group},#genre#`, then that group's channel lines. -/
def txtGroupsString (channels : List Channel) (udpxyURL : String)
    (multicastFirst : Bool) : List String → String
  | [] => ""
  | g :: gs =>
    g ++ ",#genre#\n" ++
      txtChannelsString udpxyURL multicastFirst (groupBucket channels g) ++
      txtGroupsString channels udpxyURL multicastFirst gs

/-- Split a character list at newlines (the line structure of the
rendered document). -/
def splitLines : List Char → List (List Char)
  | [] => [[]]
  | c :: cs =>
    if c = '\n' then [] :: splitLines cs
    else
      match splitLines cs with
      | [] => [[c]]
      | l :: ls => (c :: l) :: ls

/-- The characters of the group-header marker `,#genre#`. -/
def genreSuffix : List Char := ",#genre#".data

/-- Re-parse the group headers of a rendered simple-list document: the
lines ending in `,#genre#`, with that marker removed. -/
def parseGroupHeaders (doc : String) : List String :=
  ((splitLines doc.data).filterMap
    (fun l => if genreSuffix.isSuffixOf l then some (l.take (l.length - 8)) else none)).map
    List.asString

/-- First-occurrence deduplication with an explicit seen set (the
specification's "set of distinct groups present, in first-seen order"). -/
def firstSeenAux (seen : List String) : List String → List String
  | [] => []
  | g :: gs =>
    if g ∈ seen then firstSeenAux seen gs
    else g :: firstSeenAux (g :: seen) gs

/-- The distinct group names of a snapshot in first-seen order,
following the specification's words. -/
def firstSeenGroups (l : List String) : List String := firstSeenAux [] l

/-- A channel whose group name contains a newline and a decoy header
marker. -/
def nlGroupChannel : Channel :=
  ⟨"c1", "N", "1", [⟨"http", "h", "/p"⟩], "0", 0, none, "A\nB,#genre#", ""⟩

/-- A second sample channel in another group, used by the round-trip
witness. -/
def sampleChannel2 : Channel :=
  ⟨"ch3", "湖南卫视", "3", [⟨"igmp", "239.2.2.2:1000", ""⟩], "0", 0, none,
    "卫视", ""⟩

/-- C5: a refresh attempt whose acquisition errors or returns zero
channels reports a failure and leaves the cached snapshot unchanged; the
empty result is never stored. -/
theorem c5_refresh_atomic_on_empty_or_error
    (fetched : Except String (List Channel)) (cache : List Channel)
    (h : (∃ e, fetched = .error e) ∨ fetched = .ok []) :
    (updateChannels fetched cache).1 = cache ∧
    ((updateChannels fetched cache).2).isSome = true := by
  rcases h with ⟨e, rfl⟩ | rfl
  · exact ⟨rfl, rfl⟩
  · exact ⟨rfl, rfl⟩

/-- Witness for C5 at a concrete cache and an empty fetch result. -/
theorem c5_refresh_atomic_on_empty_or_error_witness :
    (updateChannels (Except.ok ([] : List Channel)) [sampleChannel]).1 =
      [sampleChannel] ∧
    ((updateChannels (Except.ok ([] : List Channel)) [sampleChannel]).2).isSome =
      true :=
  c5_refresh_atomic_on_empty_or_error (Except.ok []) [sampleChannel] (Or.inr rfl)

/-- The selection loop of the second variant returns the first URL
matching the preference, or the zero URL when none matches. -/
theorem selectURL_v2_eq_find (mf : Bool) (l : List URL) :
    selectURL_v2 mf l = (l.find? (urlPrefMatch mf)).getD URL.zero := by
  induction l with
  | nil => rfl
  | cons u rest ih =>
    simp only [selectURL_v2, List.find?]
    cases h : urlPrefMatch mf u <;> simp [h, ih]

/-- When some URL matches the preference, the selection loop of the
first variant returns the first such URL. -/
theorem selectURL_v1_of_find_some (mf : Bool) :
    ∀ (l : List URL) (first : URL),
      l.find? (urlPrefMatch mf) = some first → selectURL_v1 mf l = first := by
  intro l
  induction l with
  | nil => intro first h; simp [List.find?] at h
  | cons u rest ih =>
    intro first h
    cases rest with
    | nil =>
      rcases hm : urlPrefMatch mf u with _ | _
      · simp [List.find?, hm] at h
      · simp [List.find?, hm] at h
        simp [selectURL_v1, h]
    | cons v rest' =>
      rcases hm : urlPrefMatch mf u with _ | _
      · rw [List.find?_cons_of_neg _ (by simp [hm])] at h
        simp only [selectURL_v1, hm, Bool.false_eq_true, if_false]
        exact ih first h
      · rw [List.find?_cons_of_pos _ hm] at h
        cases h
        simp [selectURL_v1, hm]

/-- When no URL matches the preference, the selection loop of the first
variant returns the last URL of the (nonempty) list. -/
theorem selectURL_v1_of_find_none (mf : Bool) :
    ∀ l : List URL, l ≠ [] → l.find? (urlPrefMatch mf) = none →
      some (selectURL_v1 mf l) = l.getLast? := by
  intro l
  induction l with
  | nil => intro h; exact absurd rfl h
  | cons u rest ih =>
    intro _ hfind
    rcases hm : urlPrefMatch mf u with _ | _
    · rw [List.find?_cons_of_neg _ (by simp [hm])] at hfind
      cases rest with
      | nil => simp [selectURL_v1, hm]
      | cons v rest' =>
        rw [List.getLast?_cons_cons]
        simp only [selectURL_v1, hm, Bool.false_eq_true, if_false]
        exact ih (by simp) hfind
    · rw [List.find?_cons_of_pos _ hm] at hfind
      cases hfind

/-- The zero URL renders as the empty string under any proxy setting. -/
theorem renderChosenURL_zero (udpxyURL : String) :
    renderChosenURL udpxyURL URL.zero = "" := by
  simp [renderChosenURL, urlString, URL.zero, SCHEME_IGMP]

/-- C1 (amended): for a single-URL channel both `getChannelURLStr`
variants use that URL; with several URLs both use the first URL matching
the preference, scanning in declared order; when none matches, the first
variant degrades to the last URL examined but the second variant keeps
the zero `url.URL` and returns the empty string; and whichever URL is
chosen is rewritten to `{udpxyURL}/rtp/{host}` exactly when it is
multicast-scheme and a proxy base is configured, and rendered verbatim
otherwise. -/
theorem c1_url_resolution (udpxyURL : String) (multicastFirst : Bool)
    (u : URL) (urls : List URL) :
    (getChannelURLStr_v1 [u] udpxyURL multicastFirst =
        .ok (renderChosenURL udpxyURL u) ∧
     getChannelURLStr_v2 [u] udpxyURL multicastFirst =
        .ok (renderChosenURL udpxyURL u)) ∧
    (2 ≤ urls.length →
      (∀ first, urls.find? (urlPrefMatch multicastFirst) = some first →
        getChannelURLStr_v1 urls udpxyURL multicastFirst =
          .ok (renderChosenURL udpxyURL first) ∧
        getChannelURLStr_v2 urls udpxyURL multicastFirst =
          .ok (renderChosenURL udpxyURL first)) ∧
      (urls.find? (urlPrefMatch multicastFirst) = none →
        ∀ lastU, urls.getLast? = some lastU →
        getChannelURLStr_v1 urls udpxyURL multicastFirst =
          .ok (renderChosenURL udpxyURL lastU) ∧
        getChannelURLStr_v2 urls udpxyURL multicastFirst = .ok "")) ∧
    (udpxyURL ≠ "" → u.scheme = SCHEME_IGMP →
      renderChosenURL udpxyURL u = joinRtpPath udpxyURL u.host) ∧
    ((udpxyURL = "" ∨ u.scheme ≠ SCHEME_IGMP) →
      renderChosenURL udpxyURL u = urlString u) := by
  refine ⟨⟨rfl, rfl⟩, ?_, ?_, ?_⟩
  · intro hlen
    match urls, hlen with
    | a :: b :: rest, _ =>
      constructor
      · intro first hfind
        constructor
        · show Except.ok (renderChosenURL udpxyURL (selectURL_v1 multicastFirst (a :: b :: rest))) = _
          rw [selectURL_v1_of_find_some multicastFirst _ first hfind]
        · show Except.ok (renderChosenURL udpxyURL (selectURL_v2 multicastFirst (a :: b :: rest))) = _
          rw [selectURL_v2_eq_find, hfind]
          rfl
      · intro hfind lastU hlast
        constructor
        · show Except.ok (renderChosenURL udpxyURL (selectURL_v1 multicastFirst (a :: b :: rest))) = _
          have hsel := selectURL_v1_of_find_none multicastFirst (a :: b :: rest) (by simp) hfind
          rw [hlast] at hsel
          cases hsel
          rfl
        · show Except.ok (renderChosenURL udpxyURL (selectURL_v2 multicastFirst (a :: b :: rest))) = _
          rw [selectURL_v2_eq_find, hfind]
          simp [renderChosenURL_zero]
  · intro hproxy hscheme
    simp [renderChosenURL, hscheme, SCHEME_IGMP, hproxy]
  · intro hcase
    rcases hcase with h | h
    · simp [renderChosenURL, h]
    · simp only [renderChosenURL]
      rw [if_neg]
      simp only [Bool.and_eq_true, beq_iff_eq, bne_iff_ne, ne_eq]
      intro hc
      exact h hc.2

/-- Counterexample to C1 as stated: in the second `getChannelURLStr`
variant, a two-URL channel with no URL matching the preference
(two unicast URLs under multicast-first) yields the empty string — the
rendering of the zero `url.URL` — not the last candidate, which the
first variant returns. -/
theorem c1_counterexample :
    getChannelURLStr_v2 [⟨"http", "a", "/1"⟩, ⟨"http", "b", "/2"⟩] "" true =
      .ok "" ∧
    getChannelURLStr_v1 [⟨"http", "a", "/1"⟩, ⟨"http", "b", "/2"⟩] "" true =
      .ok "http://b/2" ∧
    (Except.ok "" : Except String String) ≠ .ok "http://b/2" := by
  refine ⟨rfl, rfl, ?_⟩
  intro h
  have h' : ("" : String) = "http://b/2" := by injection h
  exact absurd h' (by decide)

/-- Witness for C1 at the spec's own example: the multicast URL
`igmp://239.1.1.1:1234` with proxy base `http://192.168.1.1:4022`
renders as `http://192.168.1.1:4022/rtp/239.1.1.1:1234`. -/
theorem c1_url_resolution_witness :
    getChannelURLStr_v1 [⟨"igmp", "239.1.1.1:1234", ""⟩]
      "http://192.168.1.1:4022" true =
      .ok "http://192.168.1.1:4022/rtp/239.1.1.1:1234" ∧
    getChannelURLStr_v2 [⟨"igmp", "239.1.1.1:1234", ""⟩, ⟨"http", "u.example", "/x"⟩]
      "http://192.168.1.1:4022" true =
      .ok "http://192.168.1.1:4022/rtp/239.1.1.1:1234" := by
  have h := c1_url_resolution "http://192.168.1.1:4022" true
    ⟨"igmp", "239.1.1.1:1234", ""⟩
    [⟨"igmp", "239.1.1.1:1234", ""⟩, ⟨"http", "u.example", "/x"⟩]
  constructor
  · rw [h.1.1]
    exact rfl
  · rw [((h.2.1 (by decide)).1 ⟨"igmp", "239.1.1.1:1234", ""⟩ (by decide)).2]
    exact rfl

/-- C7 (code bug): the caller-side validation compares mode strings
lexicographically, so the undefined mode `"12"` (which is not one of
`"0"`..`"4"`) passes validation unchanged and reaches the renderer, which
silently treats it as the default mode.  The claim — every value outside
the five defined modes is reset to `"0"` before the renderer — fails at
input `"12"`. -/
theorem c7_mode_validation_passes_undefined_mode :
    validateCatchUpMode "12" = "12" ∧
    ("12" : String) ∉ (["0", "1", "2", "3", "4"] : List String) ∧
    mapCatchupMode "12" = "default" := by
  decide

/-- C2: for a channel with `TimeShift == "1"`, a positive time-shift
window and a non-nil base catch-up URL, M3U rendering under catch-up mode
`"2"` emits `catchup="flussonic"`, a catch-up source equal to the base
URL followed by the flussonic query template, and a `catchup-days` value
`d` that is the floor of the window divided by one day
(`86400000000000 * d ≤ window < 86400000000000 * (d + 1)`); the whole
attribute block appears verbatim in the rendered document. -/
theorem c2_flussonic_catchup_attributes
    (udpxyURL catchupSource logoBaseUrl : String) (logoExists : String → Bool)
    (multicastFirst : Bool) (ch : Channel) (tsURL : URL)
    (h1 : ch.timeShift = "1") (h2 : 0 < ch.timeShiftLength)
    (h3 : ch.timeShiftURL = some tsURL) :
    catchupAttr catchupSource "2" ch =
      " catchup=\"" ++ "flussonic" ++ "\" catchup-source=\"" ++
      (urlString tsURL ++ "?start=${start}&end=${end}&dvr=${duration}") ++
      "\" catchup-days=\"" ++ toString (catchupDays ch.timeShiftLength) ++ "\"" ∧
    86400000000000 * catchupDays ch.timeShiftLength ≤ ch.timeShiftLength ∧
    ch.timeShiftLength < 86400000000000 * (catchupDays ch.timeShiftLength + 1) ∧
    (∀ s, getChannelURLStr_v1 ch.channelURLs udpxyURL multicastFirst = Except.ok s →
      ∃ pre post,
        ToM3UFormat [ch] udpxyURL catchupSource "2" multicastFirst
          logoBaseUrl logoExists = Except.ok
            (pre ++ catchupAttr catchupSource "2" ch ++ post)) := by
  have hattr : catchupAttr catchupSource "2" ch =
      " catchup=\"" ++ mapCatchupMode "2" ++ "\" catchup-source=\"" ++
      catchupSourceURL catchupSource "2" (urlString tsURL) ++
      "\" catchup-days=\"" ++ toString (catchupDays ch.timeShiftLength) ++ "\"" := by
    simp only [catchupAttr, h3]
    exact if_pos ⟨h1, h2⟩
  refine ⟨by rw [hattr]; exact rfl, ?_, ?_, ?_⟩
  · have hmod := Int.ediv_add_emod ch.timeShiftLength 86400000000000
    have hnn : 0 ≤ ch.timeShiftLength % 86400000000000 :=
      Int.emod_nonneg _ (by norm_num)
    simp only [catchupDays]
    omega
  · have hmod := Int.ediv_add_emod ch.timeShiftLength 86400000000000
    have hlt : ch.timeShiftLength % 86400000000000 < 86400000000000 :=
      Int.emod_lt_of_pos _ (by norm_num)
    simp only [catchupDays]
    omega
  · intro s hs
    refine ⟨"#EXTM3U\n" ++ ("#EXTINF:-1 tvg-id=\"" ++ ch.channelID ++
      "\" tvg-chno=\"" ++ ch.userChannelID ++ "\"" ++
      logoAttr logoBaseUrl logoExists ch),
      " group-title=\"" ++ ch.groupName ++ "\"," ++ ch.channelName ++ "\n" ++
        s ++ "\n", ?_⟩
    simp only [ToM3UFormat, renderM3UChannels, m3uChannelLine, hs, List.length_cons,
      List.length_nil, bind, Except.bind]
    simp [String.append_assoc]

/-- A concrete channel with a 7-day time-shift window and base catch-up
URL `http://h/ts`, as in the spec's catch-up mode table. -/
def flussonicChannel : Channel :=
  ⟨"ch2", "回看频道", "2", [⟨"igmp", "239.9.9.9:5140", ""⟩], "1",
    604800000000000, some ⟨"http", "h", "/ts"⟩, "央视", ""⟩

/-- Witness for C2: the 7-day window channel renders exactly
`catchup="flussonic" catchup-source="http://h/ts?start=${start}&end=${end}&dvr=${duration}" catchup-days="7"`. -/
theorem c2_flussonic_catchup_attributes_witness :
    catchupAttr "" "2" flussonicChannel =
      " catchup=\"flussonic\" catchup-source=\"http://h/ts?start=${start}&end=${end}&dvr=${duration}\" catchup-days=\"7\"" ∧
    86400000000000 * catchupDays flussonicChannel.timeShiftLength ≤
      flussonicChannel.timeShiftLength := by
  have h := c2_flussonic_catchup_attributes "" "" "" (fun _ => false) true
    flussonicChannel ⟨"http", "h", "/ts"⟩ rfl (by decide) rfl
  exact ⟨by rw [h.1]; rfl, h.2.1⟩

/-- A nonempty URL list always resolves (both error cases are `[]`). -/
theorem getChannelURLStr_v1_ok (urls : List URL) (udpxyURL : String)
    (multicastFirst : Bool) (h : urls ≠ []) :
    ∃ s, getChannelURLStr_v1 urls udpxyURL multicastFirst = Except.ok s := by
  match urls, h with
  | [u], _ => exact ⟨_, rfl⟩
  | a :: b :: rest, _ => exact ⟨_, rfl⟩

/-- A zero-URL channel anywhere in the list makes the TXT channel loop
fail. -/
theorem renderTxtChannels_error_of_mem (udpxyURL : String)
    (multicastFirst : Bool) :
    ∀ l : List Channel, (∃ ch ∈ l, ch.channelURLs = []) →
      ∃ e, renderTxtChannels udpxyURL multicastFirst l = Except.error e := by
  intro l
  induction l with
  | nil => rintro ⟨ch, hmem, _⟩; cases hmem
  | cons hd rest ih =>
    rintro ⟨ch, hmem, hurls⟩
    cases hh : getChannelURLStr_v1 hd.channelURLs udpxyURL multicastFirst with
    | error e =>
      exact ⟨e, by simp [renderTxtChannels, hh, Bind.bind, Except.bind]⟩
    | ok s =>
      rcases List.mem_cons.mp hmem with rfl | hmem'
      · rw [hurls] at hh
        simp [getChannelURLStr_v1] at hh
      · obtain ⟨e, herr⟩ := ih ⟨ch, hmem', hurls⟩
        exact ⟨e, by simp [renderTxtChannels, hh, herr, Bind.bind, Except.bind]⟩

/-- A zero-URL channel anywhere in the list makes the M3U channel loop
fail. -/
theorem renderM3UChannels_error_of_mem (udpxyURL catchupSource catchUpMode : String)
    (multicastFirst : Bool) (logoBaseUrl : String) (logoExists : String → Bool) :
    ∀ l : List Channel, (∃ ch ∈ l, ch.channelURLs = []) →
      ∃ e, renderM3UChannels udpxyURL catchupSource catchUpMode multicastFirst
        logoBaseUrl logoExists l = Except.error e := by
  intro l
  induction l with
  | nil => rintro ⟨ch, hmem, _⟩; cases hmem
  | cons hd rest ih =>
    rintro ⟨ch, hmem, hurls⟩
    cases hh : getChannelURLStr_v1 hd.channelURLs udpxyURL multicastFirst with
    | error e =>
      exact ⟨e, by simp [renderM3UChannels, m3uChannelLine, hh, Bind.bind, Except.bind]⟩
    | ok s =>
      rcases List.mem_cons.mp hmem with rfl | hmem'
      · rw [hurls] at hh
        simp [getChannelURLStr_v1] at hh
      · obtain ⟨e, herr⟩ := ih ⟨ch, hmem', hurls⟩
        exact ⟨e, by simp [renderM3UChannels, m3uChannelLine, hh, herr, Bind.bind, Except.bind]⟩

/-- Every group name reachable from the input ends up in the
`groupNames` slice built by `ToTxtFormat`'s first loop. -/
theorem mem_buildGroupNames_aux :
    ∀ (l : List Channel) (acc : List String) (g : String),
      (g ∈ acc ∨ ∃ ch ∈ l, ch.groupName = g) →
      g ∈ l.foldl
        (fun acc ch => if acc.contains ch.groupName then acc else acc ++ [ch.groupName])
        acc := by
  intro l
  induction l with
  | nil =>
    rintro acc g (hacc | ⟨ch, hmem, _⟩)
    · exact hacc
    · cases hmem
  | cons hd rest ih =>
    rintro acc g (hacc | ⟨ch, hmem, hg⟩)
    · refine ih _ g (Or.inl ?_)
      dsimp only
      split
      · exact hacc
      · exact List.mem_append_left _ hacc
    · rcases List.mem_cons.mp hmem with rfl | hmem'
      · refine ih _ g (Or.inl ?_)
        subst hg
        dsimp only
        split
        · rename_i hcond
          simpa using hcond
        · exact List.mem_append_right _ (by simp)
      · exact ih _ g (Or.inr ⟨ch, hmem', hg⟩)

/-- A channel's group name is listed by `buildGroupNames`. -/
theorem groupName_mem_buildGroupNames (channels : List Channel) (ch : Channel)
    (hmem : ch ∈ channels) : ch.groupName ∈ buildGroupNames channels :=
  mem_buildGroupNames_aux channels [] ch.groupName (Or.inr ⟨ch, hmem, rfl⟩)

/-- A channel is in its own group's bucket. -/
theorem mem_groupBucket_self (channels : List Channel) (ch : Channel)
    (hmem : ch ∈ channels) : ch ∈ groupBucket channels ch.groupName := by
  simp [groupBucket, List.mem_filter, hmem]

/-- A failing bucket anywhere in the group list makes the TXT group loop
fail. -/
theorem renderTxtGroups_error_of_mem (channels : List Channel) (udpxyURL : String)
    (multicastFirst : Bool) :
    ∀ gs : List String,
      (∃ g ∈ gs, ∃ e, renderTxtChannels udpxyURL multicastFirst
        (groupBucket channels g) = Except.error e) →
      ∃ e, renderTxtGroups channels udpxyURL multicastFirst gs = Except.error e := by
  intro gs
  induction gs with
  | nil => rintro ⟨g, hmem, _⟩; cases hmem
  | cons hd rest ih =>
    rintro ⟨g, hmem, e, herr⟩
    cases hh : renderTxtChannels udpxyURL multicastFirst (groupBucket channels hd) with
    | error e' =>
      exact ⟨e', by simp [renderTxtGroups, hh, Bind.bind, Except.bind]⟩
    | ok s =>
      rcases List.mem_cons.mp hmem with rfl | hmem'
      · rw [herr] at hh
        cases hh
      · obtain ⟨e', herr'⟩ := ih ⟨g, hmem', e, herr⟩
        exact ⟨e', by simp [renderTxtGroups, hh, herr', Bind.bind, Except.bind]⟩

/-- C6 (amended): a channel with zero URLs does not lead to an
omitted-line-plus-summary; instead both renderers abort the whole
document with an error and render nothing.  The M3U HTTP handler
surfaces this as a hard error (500, empty body) but the TXT HTTP handler
answers 200 with an empty body — an empty success.  An empty channel
list is rejected by the renderers with the error `no channels found` and
by the handlers with status 404. -/
theorem c6_zero_url_channel_aborts_render
    (channels : List Channel) (udpxyURL catchupSource catchUpMode : String)
    (multicastFirst : Bool) (logoBaseUrl : String) (logoExists : String → Bool)
    (catchUpParam csFormat customSource : String)
    (ch : Channel) (hmem : ch ∈ channels) (hurls : ch.channelURLs = []) :
    (∃ e, ToTxtFormat channels udpxyURL multicastFirst = Except.error e) ∧
    (∃ e, ToM3UFormat channels udpxyURL catchupSource catchUpMode multicastFirst
      logoBaseUrl logoExists = Except.error e) ∧
    GetTXTData channels udpxyURL multicastFirst = (200, "") ∧
    GetM3UData catchUpParam csFormat customSource channels udpxyURL
      multicastFirst logoBaseUrl logoExists = (500, "") ∧
    ToTxtFormat [] udpxyURL multicastFirst = Except.error "no channels found" ∧
    ToM3UFormat [] udpxyURL catchupSource catchUpMode multicastFirst
      logoBaseUrl logoExists = Except.error "no channels found" ∧
    GetTXTData [] udpxyURL multicastFirst = (404, "") ∧
    GetM3UData catchUpParam csFormat customSource [] udpxyURL
      multicastFirst logoBaseUrl logoExists = (404, "") := by
  have hne : channels ≠ [] := List.ne_nil_of_mem hmem
  have hlen : ¬ channels.length = 0 := by
    simpa [List.length_eq_zero] using hne
  have htxt : ∃ e, ToTxtFormat channels udpxyURL multicastFirst = Except.error e := by
    obtain ⟨e, herr⟩ := renderTxtGroups_error_of_mem channels udpxyURL multicastFirst
      (buildGroupNames channels)
      ⟨ch.groupName, groupName_mem_buildGroupNames channels ch hmem,
        renderTxtChannels_error_of_mem udpxyURL multicastFirst _
          ⟨ch, mem_groupBucket_self channels ch hmem, hurls⟩⟩
    exact ⟨e, by rw [ToTxtFormat, if_neg hlen]; exact herr⟩
  have hm3u : ∀ cs cm, ∃ e, ToM3UFormat channels udpxyURL cs cm multicastFirst
      logoBaseUrl logoExists = Except.error e := by
    intro cs cm
    obtain ⟨e, herr⟩ := renderM3UChannels_error_of_mem udpxyURL cs cm multicastFirst
      logoBaseUrl logoExists channels ⟨ch, hmem, hurls⟩
    exact ⟨e, by rw [ToM3UFormat, if_neg hlen, herr]⟩
  refine ⟨htxt, hm3u catchupSource catchUpMode, ?_, ?_, rfl, rfl, rfl, rfl⟩
  · obtain ⟨e, herr⟩ := htxt
    rw [GetTXTData, if_neg hlen, herr]
  · obtain ⟨e, herr⟩ := hm3u
      (selectCatchupSource (validateCatchUpMode catchUpParam) csFormat customSource)
      (validateCatchUpMode catchUpParam)
    rw [GetM3UData]
    simp only [if_neg hlen, herr]

/-- A channel record with an empty URL list. -/
def noURLChannel : Channel := ⟨"chX", "坏频道", "9", [], "0", 0, none, "地方", ""⟩

/-- Counterexample to C6 as stated: with one good channel and one
zero-URL channel, `ToTxtFormat` renders nothing at all — it returns the
error `no channel urls found` instead of a document with the good
channel's line — and the TXT HTTP handler turns this into an HTTP 200
with an empty body, not a surfaced error. -/
theorem c6_counterexample :
    ToTxtFormat [sampleChannel, noURLChannel] "" true =
      Except.error "no channel urls found" ∧
    GetTXTData [sampleChannel, noURLChannel] "" true = (200, "") := by
  exact ⟨rfl, rfl⟩

/-- Witness for C6 at the same concrete input. -/
theorem c6_zero_url_channel_aborts_render_witness :
    (∃ e, ToTxtFormat [sampleChannel, noURLChannel] "" true = Except.error e) ∧
    (∃ e, ToM3UFormat [sampleChannel, noURLChannel] "" "" "0" true "" (fun _ => false) =
      Except.error e) ∧
    GetTXTData [sampleChannel, noURLChannel] "" true = (200, "") ∧
    GetM3UData "0" "0" "" [sampleChannel, noURLChannel] "" true ""
      (fun _ => false) = (500, "") ∧
    ToTxtFormat [] "" true = Except.error "no channels found" ∧
    ToM3UFormat [] "" "" "0" true "" (fun _ => false) =
      Except.error "no channels found" ∧
    GetTXTData [] "" true = (404, "") ∧
    GetM3UData "0" "0" "" [] "" true "" (fun _ => false) = (404, "") :=
  c6_zero_url_channel_aborts_render [sampleChannel, noURLChannel] "" "" "0" true ""
    (fun _ => false) "0" "0" "" noURLChannel (by simp) rfl

/-- The skip-policy loop collects exactly the successful days (with
their dates, in index order) and warns exactly about the
non-day-not-found failures. -/
theorem aggSkipLoop_eq (today : Int)
    (fetch : Int → Except FetchErr (List Program)) :
    ∀ l : List Int, aggSkipLoop today fetch l =
      (l.filterMap (successDay today fetch), l.filter (warnedDay fetch)) := by
  intro l
  induction l with
  | nil => rfl
  | cons i rest ih =>
    simp only [aggSkipLoop, ih]
    cases hf : fetch i with
    | ok programs =>
      simp [successDay, warnedDay, hf, List.filterMap_cons, List.filter_cons]
    | error e =>
      cases e <;>
        simp [successDay, warnedDay, hf, List.filterMap_cons, List.filter_cons]

/-- When no day hits day-not-found, the abort-policy loop behaves like
the skip-policy loop. -/
theorem aggAbortLoop_ok (today : Int)
    (fetch : Int → Except FetchErr (List Program)) :
    ∀ l : List Int, (∀ i ∈ l, fetch i ≠ .error .apiNotFound) →
      aggAbortLoop today fetch l =
        .ok (l.filterMap (successDay today fetch), l.filter (warnedDay fetch)) := by
  intro l
  induction l with
  | nil => intro _; rfl
  | cons i rest ih =>
    intro h
    have hi := h i (by simp)
    have hrest : ∀ j ∈ rest, fetch j ≠ .error .apiNotFound :=
      fun j hj => h j (by simp [hj])
    cases hf : fetch i with
    | ok programs =>
      simp [aggAbortLoop, hf, ih hrest, successDay, warnedDay, Except.map,
        List.filterMap_cons, List.filter_cons]
    | error e =>
      cases e with
      | apiNotFound => exact absurd hf hi
      | chProgListIsEmpty =>
        simp [aggAbortLoop, hf, ih hrest, successDay, warnedDay, Except.map,
          List.filterMap_cons, List.filter_cons]
      | other msg =>
        simp [aggAbortLoop, hf, ih hrest, successDay, warnedDay, Except.map,
          List.filterMap_cons, List.filter_cons]

/-- A single day-not-found day anywhere in the range makes the
abort-policy loop fail with that error. -/
theorem aggAbortLoop_abort (today : Int)
    (fetch : Int → Except FetchErr (List Program)) :
    ∀ l : List Int, (∃ i ∈ l, fetch i = .error .apiNotFound) →
      aggAbortLoop today fetch l = .error .apiNotFound := by
  intro l
  induction l with
  | nil => rintro ⟨i, hi, _⟩; cases hi
  | cons j rest ih =>
    rintro ⟨i, hi, hf⟩
    rcases List.mem_cons.mp hi with rfl | hi'
    · simp [aggAbortLoop, hf]
    · cases hj : fetch j with
      | ok programs => simp [aggAbortLoop, hj, ih ⟨i, hi', hf⟩, Except.map]
      | error e =>
        by_cases he : e = FetchErr.apiNotFound
        · subst he; simp [aggAbortLoop, hj]
        · simp [aggAbortLoop, hj, he, ih ⟨i, hi', hf⟩, Except.map]

/-- C3 (amended): in the `epg_shandong.go` and `part_003` aggregators,
for every sequence of per-day outcomes the result contains exactly the
successful days in index order, day-not-found days are skipped with no
warning, and any other failing day is warned about and skipped — no
single day ever aborts the aggregation.  In the `part_002` aggregator
the same holds for errors other than day-not-found, but a day-not-found
day aborts the whole per-channel aggregation, returning that error. -/
theorem c3_day_failure_tolerance (today maxBackDay timeShiftLength : Int)
    (daysBefore daysAfter : Nat)
    (fetch : Int → Except FetchErr (List Program)) :
    (getSdIptvChannelProgramList_A today fetch =
      (sdIndices.filterMap (successDay today fetch),
       sdIndices.filter (warnedDay fetch))) ∧
    (getShandongChannelProgramList_C daysBefore daysAfter today fetch =
      ((cIndices daysBefore daysAfter).filterMap (successDay today fetch),
       (cIndices daysBefore daysAfter).filter (warnedDay fetch))) ∧
    ((∃ i ∈ bIndices maxBackDay timeShiftLength,
        fetch i = .error .apiNotFound) →
      getSdIptvChannelProgramList_B maxBackDay timeShiftLength today fetch =
        .error .apiNotFound) ∧
    ((∀ i ∈ bIndices maxBackDay timeShiftLength,
        fetch i ≠ .error .apiNotFound) →
      getSdIptvChannelProgramList_B maxBackDay timeShiftLength today fetch =
        .ok ((bIndices maxBackDay timeShiftLength).filterMap
              (successDay today fetch),
             (bIndices maxBackDay timeShiftLength).filter (warnedDay fetch))) :=
  ⟨aggSkipLoop_eq today fetch sdIndices,
   aggSkipLoop_eq today fetch (cIndices daysBefore daysAfter),
   aggAbortLoop_abort today fetch (bIndices maxBackDay timeShiftLength),
   aggAbortLoop_ok today fetch (bIndices maxBackDay timeShiftLength)⟩

/-- A concrete per-day oracle whose day 1 is day-not-found and whose
other days succeed. -/
def fetchB (i : Int) : Except FetchErr (List Program) :=
  if i = 1 then .error .apiNotFound else .ok [⟨"节目", 600, 660⟩]

/-- Counterexample to C3 as stated: in `part_002`'s aggregator a single
day-not-found day (index 1) aborts the whole aggregation with that
error, even though other days (indices 0 and 2) succeed — the claim says
such a day is skipped silently and the successful days are returned. -/
theorem c3_counterexample :
    getSdIptvChannelProgramList_B 8 86400000000000 0 fetchB =
      .error .apiNotFound ∧
    fetchB 0 = .ok [⟨"节目", 600, 660⟩] ∧
    fetchB 2 = .ok [⟨"节目", 600, 660⟩] :=
  ⟨rfl, rfl, rfl⟩

/-- Witness for C3: the abort branch at the concrete oracle `fetchB`,
and the no-day-not-found branch at an all-successful oracle. -/
theorem c3_day_failure_tolerance_witness :
    getSdIptvChannelProgramList_B 8 86400000000000 0 fetchB =
      .error .apiNotFound ∧
    getSdIptvChannelProgramList_B 8 86400000000000 0 (fun _ => .ok []) =
      .ok ([⟨0, []⟩, ⟨1, []⟩, ⟨2, []⟩], []) := by
  have h1 := (c3_day_failure_tolerance 0 8 86400000000000 0 0 fetchB).2.2.1
    ⟨1, by decide, rfl⟩
  have h2 := (c3_day_failure_tolerance 0 8 86400000000000 0 0
    (fun _ => .ok [])).2.2.2 (fun i _ h => Except.noConfusion h)
  exact ⟨h1, h2.trans rfl⟩

/-- C10: a retrieved-and-decoded day with zero program entries makes
both parsers return the distinguished `ErrChProgListIsEmpty` instead of
an empty list, and in the aggregated per-channel result such a day is
absent (omitted via the per-day error path), never present as an empty
date entry. -/
theorem c10_empty_day_error_and_omitted (baseDay today : Int)
    (raw : Int → List RawProgramEntry) (i : Int)
    (hmem : i ∈ sdIndices) (hempty : raw i = []) :
    parseShandongPrograms [] baseDay = .error .chProgListIsEmpty ∧
    parseSdIptvProgramList [] baseDay = .error .chProgListIsEmpty ∧
    (today + i) ∉
      (getSdIptvChannelProgramList_A today
        (fun j => parseShandongPrograms (raw j) (today + j))).1.map
        DateProgram.date := by
  refine ⟨rfl, rfl, ?_⟩
  rw [getSdIptvChannelProgramList_A, aggSkipLoop_eq]
  intro hmem'
  rcases List.mem_map.mp hmem' with ⟨dp, hdp, hdate⟩
  rcases List.mem_filterMap.mp hdp with ⟨j, _, hsucc⟩
  cases hf : parseShandongPrograms (raw j) (today + j) with
  | error e => simp [successDay, hf] at hsucc
  | ok programs =>
    simp only [successDay, hf] at hsucc
    cases hsucc
    have hji : j = i := by
      have : today + j = today + i := hdate
      omega
    subst hji
    rw [hempty] at hf
    simp [parseShandongPrograms] at hf

/-- A concrete raw-response oracle whose day 0 decodes to zero entries
and whose other days have one entry. -/
def rawW (i : Int) : List RawProgramEntry :=
  if i = 0 then [] else [⟨"X", "10:00", "11:00"⟩]

/-- Witness for C10 at the concrete oracle `rawW`: day 0 is absent from
the aggregated dates. -/
theorem c10_empty_day_error_and_omitted_witness :
    parseShandongPrograms [] 0 = .error .chProgListIsEmpty ∧
    (0 : Int) ∉
      (getSdIptvChannelProgramList_A 0
        (fun j => parseShandongPrograms (rawW j) (0 + j))).1.map
        DateProgram.date := by
  have h := c10_empty_day_error_and_omitted 0 0 rawW 0 (by decide) rfl
  exact ⟨h.1, by simpa using h.2.2⟩

/-- The parsed clock values are range-checked: a successful `parseHHMM`
yields an hour below 24 and a minute below 60. -/
theorem parseHHMM_bounds (s : String) (hm : Nat × Nat)
    (hp : parseHHMM s = some hm) : hm.1 < 24 ∧ hm.2 < 60 := by
  rcases hsd : s.data with _ | ⟨c1, rest1⟩
  · simp [parseHHMM, hsd] at hp
  rcases rest1 with _ | ⟨c2, rest2⟩
  · simp [parseHHMM, hsd] at hp
  rcases rest2 with _ | ⟨c3, rest3⟩
  · simp [parseHHMM, hsd] at hp
  rcases rest3 with _ | ⟨c4, rest4⟩
  · simp [parseHHMM, hsd] at hp
  rcases rest4 with _ | ⟨c5, rest5⟩
  · simp only [parseHHMM, hsd] at hp
    split_ifs at hp with hcond hrange
    cases hp
    exact hrange
  rcases rest5 with _ | ⟨c6, rest6⟩
  · simp only [parseHHMM, hsd] at hp
    split_ifs at hp with h1 h2 h3
    cases hp
    exact h3
  · simp [parseHHMM, hsd] at hp

/-- C8 (amended): in both EPG parsers, after midnight-crossing
normalization the end time is never before the start time and is at most
one day after it; it is strictly after the start whenever the two raw
clock times denote different minutes of the day (equal raw times yield a
zero-length program, see the counterexample). -/
theorem c8_end_never_before_start (baseDay : Int) (startStr endStr : String)
    (st en : Int) :
    (parseShandongTimes baseDay startStr endStr = some (st, en) →
      st ≤ en ∧ en ≤ st + 1440) ∧
    (parseSdIptvEntryTimes baseDay startStr endStr = some (st, en) →
      st ≤ en ∧ en ≤ st + 1440) ∧
    (∀ sh sm eh em, parseHHMM (truncTime startStr) = some (sh, sm) →
      parseHHMM (truncTime endStr) = some (eh, em) →
      sh * 60 + sm ≠ eh * 60 + em →
      parseShandongTimes baseDay startStr endStr = some (st, en) → st < en) ∧
    (∀ sh sm eh em, parseHHMM startStr = some (sh, sm) →
      parseHHMM (truncTime endStr) = some (eh, em) →
      sh * 60 + sm ≠ eh * 60 + em →
      parseSdIptvEntryTimes baseDay startStr endStr = some (st, en) → st < en) := by
  refine ⟨?_, ?_, ?_, ?_⟩
  · intro hp
    cases hs : parseHHMM (truncTime startStr) with
    | none => simp [parseShandongTimes, hs] at hp
    | some shm =>
      obtain ⟨sh, sm⟩ := shm
      cases he : parseHHMM (truncTime endStr) with
      | none => simp [parseShandongTimes, hs, he] at hp
      | some ehm =>
        obtain ⟨eh, em⟩ := ehm
        obtain ⟨hsh, hsm⟩ := parseHHMM_bounds _ _ hs
        obtain ⟨heh, hem⟩ := parseHHMM_bounds _ _ he
        simp only [parseShandongTimes, hs, he,
          Option.some.injEq, Prod.mk.injEq] at hp
        obtain ⟨hst, hen⟩ := hp
        simp only [Int.ofNat_eq_coe] at hst hen
        split at hen <;> omega
  · intro hp
    cases hs : parseHHMM startStr with
    | none => simp [parseSdIptvEntryTimes, hs] at hp
    | some shm =>
      obtain ⟨sh, sm⟩ := shm
      cases he : parseHHMM (truncTime endStr) with
      | none => simp [parseSdIptvEntryTimes, hs, he] at hp
      | some ehm =>
        obtain ⟨eh, em⟩ := ehm
        obtain ⟨hsh, hsm⟩ := parseHHMM_bounds _ _ hs
        obtain ⟨heh, hem⟩ := parseHHMM_bounds _ _ he
        simp only [parseSdIptvEntryTimes, hs, he,
          Option.some.injEq, Prod.mk.injEq] at hp
        obtain ⟨hst, hen⟩ := hp
        simp only [Int.ofNat_eq_coe] at hst hen
        split at hen <;> omega
  · intro sh sm eh em hs he hne hp
    obtain ⟨hsh, hsm⟩ := parseHHMM_bounds _ _ hs
    obtain ⟨heh, hem⟩ := parseHHMM_bounds _ _ he
    simp only [parseShandongTimes, hs, he,
      Option.some.injEq, Prod.mk.injEq] at hp
    obtain ⟨hst, hen⟩ := hp
    simp only [Int.ofNat_eq_coe] at hst hen
    split at hen <;> omega
  · intro sh sm eh em hs he hne hp
    obtain ⟨hsh, hsm⟩ := parseHHMM_bounds _ _ hs
    obtain ⟨heh, hem⟩ := parseHHMM_bounds _ _ he
    simp only [parseSdIptvEntryTimes, hs, he,
      Option.some.injEq, Prod.mk.injEq] at hp
    obtain ⟨hst, hen⟩ := hp
    simp only [Int.ofNat_eq_coe] at hst hen
    split at hen <;> omega

/-- Counterexample to C8 as stated: a program whose raw start and end
times are the same minute (`10:00`–`10:00`) is parsed by both parsers
with `end = start` — not strictly after. -/
theorem c8_counterexample :
    parseShandongTimes 0 "10:00" "10:00" = some (600, 600) ∧
    parseSdIptvEntryTimes 0 "10:00" "10:00" = some (600, 600) ∧
    ¬ ((600 : Int) < 600) :=
  ⟨rfl, rfl, by omega⟩

/-- Witness for C8 at the spec's midnight-crossing example
`23:30`–`00:15`, exercising both parsers' bounds and both strictness
conjuncts. -/
theorem c8_end_never_before_start_witness :
    ((1410 : Int) ≤ 1455 ∧ (1455 : Int) ≤ 1410 + 1440) ∧
    ((1410 : Int) ≤ 1455 ∧ (1455 : Int) ≤ 1410 + 1440) ∧
    (1410 : Int) < 1455 ∧ (1410 : Int) < 1455 :=
  ⟨(c8_end_never_before_start 0 "23:30" "00:15" 1410 1455).1 rfl,
   (c8_end_never_before_start 0 "23:30" "00:15" 1410 1455).2.1 rfl,
   (c8_end_never_before_start 0 "23:30" "00:15" 1410 1455).2.2.1
     23 30 0 15 rfl rfl (by omega) rfl,
   (c8_end_never_before_start 0 "23:30" "00:15" 1410 1455).2.2.2
     23 30 0 15 rfl rfl (by omega) rfl⟩

/-- The entry loop is `filterMap`: successful entries are kept in order
and failing entries are dropped individually. -/
theorem parseLoop_eq_filterMap (f : RawProgramEntry → Option Program) :
    ∀ (l : List RawProgramEntry) (acc : List Program),
      parseLoop f l acc = acc ++ l.filterMap f := by
  intro l
  induction l with
  | nil => intro acc; simp [parseLoop]
  | cons item rest ih =>
    intro acc
    cases hf : f item with
    | none => simp [parseLoop, hf, ih, List.filterMap_cons]
    | some p => simp [parseLoop, hf, ih, List.filterMap_cons]

/-- C4 (amended): start and end times are anchored to the day's base
date and an end before the start is advanced exactly one calendar day
(`23:30`–`00:15` on day `D` becomes `D 23:30`–`(D+1) 00:15`); an entry
whose start or end fails to parse is dropped individually while the rest
of the listing is kept.  Trailing seconds are truncated for both times in
`parseShandongTimes`, but in `parseSdIptvProgramList` only the end time
is truncated — a start time carrying seconds fails to parse and drops
the entry. -/
theorem c4_program_time_parsing (baseDay : Int) :
    parseShandongTimes baseDay "23:30" "00:15" =
      some (baseDay * 1440 + 1410, (baseDay + 1) * 1440 + 15) ∧
    parseShandongTimes baseDay "23:30:45" "00:15:30" =
      parseShandongTimes baseDay "23:30" "00:15" ∧
    parseSdIptvEntryTimes baseDay "23:30:00" "23:45" = none ∧
    parseSdIptvEntryTimes baseDay "23:30" "23:45:00" =
      some (baseDay * 1440 + 1410, baseDay * 1440 + 1425) ∧
    (∀ (data₁ data₂ : List RawProgramEntry) (item : RawProgramEntry),
      shandongEntryProgram baseDay item = none →
      parseLoop (shandongEntryProgram baseDay) (data₁ ++ item :: data₂) [] =
        parseLoop (shandongEntryProgram baseDay) (data₁ ++ data₂) []) ∧
    (∀ (data₁ data₂ : List RawProgramEntry) (item : RawProgramEntry),
      sdIptvEntryProgram baseDay item = none →
      parseLoop (sdIptvEntryProgram baseDay) (data₁ ++ item :: data₂) [] =
        parseLoop (sdIptvEntryProgram baseDay) (data₁ ++ data₂) []) := by
  refine ⟨?_, rfl, rfl, ?_, ?_, ?_⟩
  · have hs : parseHHMM (truncTime "23:30") = some (23, 30) := rfl
    have he : parseHHMM (truncTime "00:15") = some (0, 15) := rfl
    simp only [parseShandongTimes, hs, he, Option.some.injEq, Prod.mk.injEq,
      Int.ofNat_eq_coe]
    rw [if_pos (by push_cast; omega)]
    constructor
    · push_cast; ring
    · push_cast; ring
  · have hs : parseHHMM "23:30" = some (23, 30) := rfl
    have he : parseHHMM (truncTime "23:45:00") = some (23, 45) := rfl
    simp only [parseSdIptvEntryTimes, hs, he, Option.some.injEq, Prod.mk.injEq,
      Int.ofNat_eq_coe]
    rw [if_neg (by push_cast; omega)]
    constructor
    · push_cast; ring
    · push_cast; ring
  · intro data₁ data₂ item hnone
    rw [parseLoop_eq_filterMap, parseLoop_eq_filterMap]
    simp [List.filterMap_append, List.filterMap_cons, hnone]
  · intro data₁ data₂ item hnone
    rw [parseLoop_eq_filterMap, parseLoop_eq_filterMap]
    simp [List.filterMap_append, List.filterMap_cons, hnone]

/-- Counterexample to C4 as stated: `parseSdIptvProgramList` does not
truncate trailing seconds off the start time — the entry
`23:30:00`–`23:45:00` is dropped (only the seconds-free `Q` entry
survives), although `parseShandongTimes` shows the same times parse fine
once truncated. -/
theorem c4_counterexample :
    parseSdIptvProgramList
      [⟨"P", "23:30:00", "23:45:00"⟩, ⟨"Q", "10:00", "11:00"⟩] 0 =
      .ok [⟨"Q", 600, 660⟩] ∧
    parseShandongTimes 0 "23:30:00" "23:45:00" = some (1410, 1425) :=
  ⟨rfl, rfl⟩

/-- Witness for C4: an unparseable entry (`25:00`) is dropped while the
rest of the listing is kept, and the midnight-crossing example
normalizes to `(0·1440+1410, 1·1440+15)`. -/
theorem c4_program_time_parsing_witness :
    parseLoop (shandongEntryProgram 0)
      [⟨"Q", "10:00", "11:00"⟩, ⟨"P", "25:00", "26:00"⟩] [] =
      parseLoop (shandongEntryProgram 0) [⟨"Q", "10:00", "11:00"⟩] [] ∧
    parseShandongTimes 0 "23:30" "00:15" = some (1410, 1455) := by
  have h := c4_program_time_parsing 0
  constructor
  · exact h.2.2.2.2.1 [⟨"Q", "10:00", "11:00"⟩] [] ⟨"P", "25:00", "26:00"⟩ rfl
  · exact h.1.trans (by norm_num)

/-- A nonempty URL list resolves to the rendering of the chosen URL. -/
theorem getChannelURLStr_v1_eq_chosen (urls : List URL) (udpxyURL : String)
    (multicastFirst : Bool) (h : urls ≠ []) :
    getChannelURLStr_v1 urls udpxyURL multicastFirst =
      Except.ok (renderChosenURL udpxyURL (chosenURL multicastFirst urls)) := by
  match urls, h with
  | [u], _ => rfl
  | a :: b :: rest, _ => rfl

/-- When every channel has a URL, the TXT channel loop succeeds and
produces the channel lines. -/
theorem renderTxtChannels_ok (udpxyURL : String) (multicastFirst : Bool) :
    ∀ l : List Channel, (∀ ch ∈ l, ch.channelURLs ≠ []) →
      renderTxtChannels udpxyURL multicastFirst l =
        Except.ok (txtChannelsString udpxyURL multicastFirst l) := by
  intro l
  induction l with
  | nil => intro _; rfl
  | cons ch rest ih =>
    intro h
    have hch := getChannelURLStr_v1_eq_chosen ch.channelURLs udpxyURL
      multicastFirst (h ch (by simp))
    have hrest := ih (fun c hc => h c (by simp [hc]))
    simp only [renderTxtChannels, hch, hrest, Bind.bind, Except.bind,
      txtChannelsString, txtChannelCore]

/-- When every channel has a URL, the TXT group loop succeeds and
produces the grouped document. -/
theorem renderTxtGroups_ok (channels : List Channel) (udpxyURL : String)
    (multicastFirst : Bool) (h : ∀ ch ∈ channels, ch.channelURLs ≠ []) :
    ∀ gs : List String,
      renderTxtGroups channels udpxyURL multicastFirst gs =
        Except.ok (txtGroupsString channels udpxyURL multicastFirst gs) := by
  intro gs
  induction gs with
  | nil => rfl
  | cons g gs ih =>
    have hbucket : ∀ ch ∈ groupBucket channels g, ch.channelURLs ≠ [] :=
      fun ch hc => h ch (List.mem_filter.mp hc).1
    simp only [renderTxtGroups, renderTxtChannels_ok udpxyURL multicastFirst _ hbucket,
      ih, Bind.bind, Except.bind, txtGroupsString]

/-- `ToTxtFormat` on a nonempty list of channels that all have URLs. -/
theorem ToTxtFormat_ok (channels : List Channel) (udpxyURL : String)
    (multicastFirst : Bool) (hne : channels ≠ [])
    (h : ∀ ch ∈ channels, ch.channelURLs ≠ []) :
    ToTxtFormat channels udpxyURL multicastFirst =
      Except.ok (txtGroupsString channels udpxyURL multicastFirst
        (buildGroupNames channels)) := by
  rw [ToTxtFormat, if_neg (by simpa [List.length_eq_zero] using hne)]
  exact renderTxtGroups_ok channels udpxyURL multicastFirst h _

/-- `splitLines` always yields at least one (possibly empty) line. -/
theorem splitLines_ne_nil : ∀ cs : List Char, splitLines cs ≠ [] := by
  intro cs
  induction cs with
  | nil => simp [splitLines]
  | cons c cs ih =>
    simp only [splitLines]
    split
    · simp
    · cases h : splitLines cs with
      | nil => simp
      | cons l ls => simp

/-- Splitting after a newline-free prefix peels off one line. -/
theorem splitLines_append_newline :
    ∀ a rest : List Char, ¬ '\n' ∈ a →
      splitLines (a ++ '\n' :: rest) = a :: splitLines rest := by
  intro a
  induction a with
  | nil => intro rest _; simp [splitLines]
  | cons c a ih =>
    intro rest hnl
    have hc : ¬ c = '\n' := fun h => hnl (by simp [h])
    have hmem : ¬ '\n' ∈ a := fun h => hnl (by simp [h])
    simp only [List.cons_append, splitLines, if_neg hc, List.append_eq, ih rest hmem]

/-- The channel-lines block of one group contributes exactly one line
per channel. -/
theorem splitLines_txtChannels (udpxyURL : String) (multicastFirst : Bool) :
    ∀ (chs : List Channel) (rest : List Char),
      (∀ ch ∈ chs, ¬ '\n' ∈ (txtChannelCore udpxyURL multicastFirst ch).data) →
      splitLines ((txtChannelsString udpxyURL multicastFirst chs).data ++ rest) =
        (chs.map (fun ch => (txtChannelCore udpxyURL multicastFirst ch).data)) ++
          splitLines rest := by
  intro chs
  induction chs with
  | nil => intro rest _; simp [txtChannelsString]
  | cons ch chs ih =>
    intro rest h
    have hch := h ch (by simp)
    have hchs : ∀ c ∈ chs, ¬ '\n' ∈ (txtChannelCore udpxyURL multicastFirst c).data :=
      fun c hc => h c (by simp [hc])
    have hdata : ((txtChannelCore udpxyURL multicastFirst ch ++ "\n" ++
        txtChannelsString udpxyURL multicastFirst chs).data ++ rest) =
        (txtChannelCore udpxyURL multicastFirst ch).data ++ '\n' ::
          ((txtChannelsString udpxyURL multicastFirst chs).data ++ rest) := by
      simp [String.data_append, List.append_assoc,
        (show ("\n" : String).data = ['\n'] from rfl)]
    simp only [txtChannelsString, hdata, splitLines_append_newline _ _ hch,
      ih rest hchs, List.map_cons, List.cons_append]

/-- Re-parsing the headers of the rendered group blocks recovers exactly
the group-name list. -/
theorem parseHeaders_txtGroups (channels : List Channel) (udpxyURL : String)
    (multicastFirst : Bool)
    (hcnl : ∀ ch ∈ channels, ¬ '\n' ∈ (txtChannelCore udpxyURL multicastFirst ch).data)
    (hcsafe : ∀ ch ∈ channels,
      genreSuffix.isSuffixOf (txtChannelCore udpxyURL multicastFirst ch).data = false) :
    ∀ gs : List String, (∀ g ∈ gs, ¬ '\n' ∈ g.data) →
      (splitLines ((txtGroupsString channels udpxyURL multicastFirst gs).data)).filterMap
        (fun l => if genreSuffix.isSuffixOf l then some (l.take (l.length - 8)) else none) =
        gs.map String.data := by
  intro gs
  induction gs with
  | nil => intro _; rfl
  | cons g gs ih =>
    intro hg
    have hgh := hg g (by simp)
    have hgs : ∀ x ∈ gs, ¬ '\n' ∈ x.data := fun x hx => hg x (by simp [hx])
    have hbcnl : ∀ ch ∈ groupBucket channels g,
        ¬ '\n' ∈ (txtChannelCore udpxyURL multicastFirst ch).data :=
      fun ch hc => hcnl ch (List.mem_filter.mp hc).1
    have hbsafe : ∀ ch ∈ groupBucket channels g,
        genreSuffix.isSuffixOf (txtChannelCore udpxyURL multicastFirst ch).data = false :=
      fun ch hc => hcsafe ch (List.mem_filter.mp hc).1
    have hheader : ¬ '\n' ∈ (g.data ++ genreSuffix) := by
      intro hm
      rcases List.mem_append.mp hm with hm | hm
      · exact hgh hm
      · exact absurd hm (by decide)
    have hdata : (txtGroupsString channels udpxyURL multicastFirst (g :: gs)).data =
        (g.data ++ genreSuffix) ++ '\n' ::
          ((txtChannelsString udpxyURL multicastFirst (groupBucket channels g)).data ++
            (txtGroupsString channels udpxyURL multicastFirst gs).data) := by
      simp [txtGroupsString, String.data_append, List.append_assoc, genreSuffix,
        (show (",#genre#\n" : String).data = genreSuffix ++ ['\n'] from rfl)]
    rw [hdata, splitLines_append_newline _ _ hheader,
      splitLines_txtChannels udpxyURL multicastFirst _ _ hbcnl]
    rw [List.filterMap_cons]
    rw [if_pos (List.isSuffixOf_iff_suffix.mpr (List.suffix_append _ _))]
    rw [List.filterMap_append]
    rw [List.filterMap_eq_nil_iff.mpr (fun l hl => ?_), List.nil_append, ih hgs]
    · rw [List.map_cons]
      have hlen : (g.data ++ genreSuffix).length - 8 = g.data.length := by
        simp [genreSuffix]
      rw [hlen, List.take_left]
    · rcases List.mem_map.mp hl with ⟨ch, hc, rfl⟩
      rw [hbsafe ch hc]
      rfl

/-- Every name in `buildGroupNames` is the group of some channel. -/
theorem mem_buildGroupNames_exists :
    ∀ (l : List Channel) (acc : List String) (g : String),
      g ∈ l.foldl
        (fun acc ch => if acc.contains ch.groupName then acc else acc ++ [ch.groupName])
        acc →
      g ∈ acc ∨ ∃ ch ∈ l, ch.groupName = g := by
  intro l
  induction l with
  | nil => intro acc g h; exact Or.inl h
  | cons hd rest ih =>
    intro acc g h
    rcases ih _ g h with hacc | ⟨ch, hm, hgn⟩
    · dsimp only at hacc
      split at hacc
      · exact Or.inl hacc
      · rcases List.mem_append.mp hacc with h1 | h2
        · exact Or.inl h1
        · simp only [List.mem_singleton] at h2
          exact Or.inr ⟨hd, by simp, h2.symm⟩
    · exact Or.inr ⟨ch, by simp [hm], hgn⟩

/-- `firstSeenAux` depends on the seen set only through membership. -/
theorem firstSeenAux_seen_congr :
    ∀ (l s₁ s₂ : List String), (∀ x, x ∈ s₁ ↔ x ∈ s₂) →
      firstSeenAux s₁ l = firstSeenAux s₂ l := by
  intro l
  induction l with
  | nil => intro _ _ _; rfl
  | cons g gs ih =>
    intro s₁ s₂ h
    simp only [firstSeenAux]
    by_cases hm : g ∈ s₁
    · rw [if_pos hm, if_pos ((h g).mp hm), ih s₁ s₂ h]
    · rw [if_neg hm, if_neg (fun hx => hm ((h g).mpr hx)),
        ih (g :: s₁) (g :: s₂) (fun x => by simp [h x])]

/-- The first-seen fold of `ToTxtFormat` computes first-occurrence
deduplication relative to the accumulated seen set. -/
theorem buildGroupNames_foldl_eq :
    ∀ (gl acc : List String),
      gl.foldl (fun acc g => if acc.contains g then acc else acc ++ [g]) acc =
        acc ++ firstSeenAux acc gl := by
  intro gl
  induction gl with
  | nil => intro acc; simp [firstSeenAux]
  | cons g gs ih =>
    intro acc
    simp only [List.foldl_cons, firstSeenAux]
    by_cases hm : g ∈ acc
    · rw [if_pos (List.elem_eq_true_of_mem hm), if_pos hm, ih acc]
    · rw [if_neg ?_, if_neg hm, ih (acc ++ [g])]
      · rw [firstSeenAux_seen_congr gs (acc ++ [g]) (g :: acc)
          (fun x => by simp [or_comm])]
        simp
      · intro hc
        exact hm (List.mem_of_elem_eq_true hc)

/-- The code's first-seen group fold equals the specification's
first-occurrence deduplication of the group-name sequence. -/
theorem buildGroupNames_eq_firstSeen (channels : List Channel) :
    buildGroupNames channels =
      firstSeenGroups (channels.map Channel.groupName) := by
  have h := buildGroupNames_foldl_eq (channels.map Channel.groupName) []
  rw [List.foldl_map] at h
  simpa [buildGroupNames, firstSeenGroups] using h

/-- `asString` undoes `data`. -/
theorem string_data_asString (s : String) : s.data.asString = s := by
  cases s
  rfl

/-- C9 (amended): for every nonempty channel list whose channels all
have URLs, whose group names contain no newline, and whose channel lines
(`name,resolvedURL`) contain no newline and do not end in the header
marker `,#genre#`, the rendered TXT document groups channels by group
name with first-seen group order preserved — a `{group},#genre#` header,
then one `name,resolvedURL` line per channel of the group — and
re-parsing the group headers of the rendered document recovers exactly
the distinct groups of the input, in first-seen order.  Without the
well-formedness hypotheses the round trip can fail (see the
counterexample). -/
theorem c9_txt_round_trip (channels : List Channel) (udpxyURL : String)
    (multicastFirst : Bool)
    (hne : channels ≠ [])
    (hurls : ∀ ch ∈ channels, ch.channelURLs ≠ [])
    (hgnl : ∀ ch ∈ channels, ¬ '\n' ∈ ch.groupName.data)
    (hcnl : ∀ ch ∈ channels,
      ¬ '\n' ∈ (txtChannelCore udpxyURL multicastFirst ch).data)
    (hcsafe : ∀ ch ∈ channels,
      genreSuffix.isSuffixOf (txtChannelCore udpxyURL multicastFirst ch).data = false) :
    ToTxtFormat channels udpxyURL multicastFirst =
      Except.ok (txtGroupsString channels udpxyURL multicastFirst
        (buildGroupNames channels)) ∧
    parseGroupHeaders (txtGroupsString channels udpxyURL multicastFirst
      (buildGroupNames channels)) = buildGroupNames channels ∧
    buildGroupNames channels =
      firstSeenGroups (channels.map Channel.groupName) := by
  refine ⟨ToTxtFormat_ok channels udpxyURL multicastFirst hne hurls, ?_,
    buildGroupNames_eq_firstSeen channels⟩
  have hg : ∀ g ∈ buildGroupNames channels, ¬ '\n' ∈ g.data := by
    intro g hgmem
    rcases mem_buildGroupNames_exists channels [] g hgmem with h0 | ⟨ch, hm, rfl⟩
    · cases h0
    · exact hgnl ch hm
  rw [parseGroupHeaders,
    parseHeaders_txtGroups channels udpxyURL multicastFirst hcnl hcsafe _ hg,
    List.map_map]
  simp only [Function.comp_def, string_data_asString, List.map_id']

/-- Counterexample to C9 as stated: a group name containing a newline
(`"A\nB,#genre#"`) renders to a document whose headers re-parse to
`["B,#genre#"]`, not to the snapshot's distinct group list
`["A\nB,#genre#"]`. -/
theorem c9_counterexample :
    ToTxtFormat [nlGroupChannel] "" true =
      Except.ok "A\nB,#genre#,#genre#\nN,http://h/p\n" ∧
    parseGroupHeaders "A\nB,#genre#,#genre#\nN,http://h/p\n" = ["B,#genre#"] ∧
    firstSeenGroups ([nlGroupChannel].map Channel.groupName) = ["A\nB,#genre#"] ∧
    (["B,#genre#"] : List String) ≠ ["A\nB,#genre#"] := by
  refine ⟨rfl, rfl, rfl, by decide⟩

/-- Witness for C9 at a concrete two-group snapshot. -/
theorem c9_txt_round_trip_witness :
    ToTxtFormat [sampleChannel, sampleChannel2] "" false =
      Except.ok (txtGroupsString [sampleChannel, sampleChannel2] "" false
        (buildGroupNames [sampleChannel, sampleChannel2])) ∧
    parseGroupHeaders (txtGroupsString [sampleChannel, sampleChannel2] "" false
      (buildGroupNames [sampleChannel, sampleChannel2])) = ["央视", "卫视"] ∧
    firstSeenGroups ([sampleChannel, sampleChannel2].map Channel.groupName) =
      ["央视", "卫视"] := by
  have h := c9_txt_round_trip [sampleChannel, sampleChannel2] "" false
    (by decide) (by decide) (by decide) (by decide) (by decide)
  exact ⟨h.1, h.2.1.trans rfl, h.2.2.symm.trans rfl⟩

end IptvTool
